import Mathlib

/-!
Verification development for the food-tracker single-page application.

The storage and domain-operation layer is embedded from
src/services/StorageService.ts (class FoodTrackerManager; the file
src/unnamed/part_003 is an identical copy of the same class), the read-time
id migration from its getLibrary and getHistory methods, and the stats
aggregation from the StatsView component of src/index.js.

Modelling conventions:
* JS strings are Lean String values; character-level work goes through
  String.data so every definition evaluates inside the kernel.
* String.prototype.trim is modelled by jsTrim (strip leading and trailing
  whitespace characters).
* name.localeCompare(other) used by the sort comparators is modelled as
  case-insensitive lexicographic comparison of the lowercased strings
  (the actual locale tables are environment data, not code).
* Array.prototype.sort with a comparator is required by ECMAScript to be a
  stable sort, and a stable sorted permutation is unique, so it is modelled
  by List.insertionSort, which Mathlib proves stable and sorted.
* localStorage holds the two serialized collections; it is modelled as a
  Store record carrying the parsed lists, and each FoodTrackerManager
  method becomes a function from arguments and the store to the pair of
  its return value and the store after its saves.  generateId results are
  passed in as explicit fresh-id arguments (the JS source draws them from
  crypto.randomUUID or Date.now plus randomness).
-/

namespace FoodTracker

/-- Lowercase an ASCII letter, identity elsewhere (model of the character
level action of String.toLowerCase on the names this app handles). -/
def lowerChar (c : Char) : Char :=
  if 'A' ≤ c ∧ c ≤ 'Z' then Char.ofNat (c.toNat + 32) else c

/-- Case fold a string by lowercasing every character. -/
def lowerStr (s : String) : String :=
  ⟨s.data.map lowerChar⟩

/-- Whitespace test used by the trim model. -/
def isSpace (c : Char) : Bool :=
  decide (c = ' ') || decide (c = '\t') || decide (c = '\n') || decide (c = '\r')

/-- Drop leading whitespace characters. -/
def dropLeading : List Char → List Char
  | [] => []
  | c :: cs => if isSpace c then dropLeading cs else c :: cs

/-- Model of JS String.prototype.trim: strip whitespace from both ends. -/
def jsTrim (s : String) : String :=
  ⟨(dropLeading (dropLeading s.data.reverse).reverse)⟩

/-- Model of the a.name.localeCompare(b.name) sort comparator accepting a
pair: case-insensitive lexicographic order on the underlying strings. -/
def nameLe (a b : String) : Prop :=
  (lowerStr a).data ≤ (lowerStr b).data

instance nameLe.dec : ∀ a b, Decidable (nameLe a b) := fun a b =>
  inferInstanceAs (Decidable ((lowerStr a).data ≤ (lowerStr b).data))

/-- FoodItem from src/types as used by StorageService.ts: id, name,
createdAt. -/
structure FoodItem where
  id : String
  name : String
  createdAt : Int
deriving DecidableEq, Repr

/-- MealEntry as built by FoodTrackerManager.logMeal: id, timestamp,
items (always the empty list in this code path) and itemNames. -/
structure MealEntry where
  id : String
  timestamp : Int
  items : List String
  itemNames : List String
deriving DecidableEq, Repr

/-- The two localStorage collections (food_flow_library and
food_flow_history), already parsed. -/
structure Store where
  libraryData : List FoodItem
  historyData : List MealEntry
deriving DecidableEq, Repr

/-- Comparator of getLibrary's sort: (a, b) => a.name.localeCompare(b.name). -/
def foodLe (a b : FoodItem) : Prop := nameLe a.name b.name

instance foodLe.dec : DecidableRel foodLe := fun a b => nameLe.dec a.name b.name

instance foodLe.total : IsTotal FoodItem foodLe :=
  ⟨fun a b => le_total (lowerStr a.name).data (lowerStr b.name).data⟩

instance foodLe.trans : IsTrans FoodItem foodLe :=
  ⟨fun _ _ _ h h2 => le_trans h h2⟩

/-- Comparator of getHistory's sort: (a, b) => b.timestamp - a.timestamp,
that is timestamp descending. -/
def mealGe (a b : MealEntry) : Prop := b.timestamp ≤ a.timestamp

instance mealGe.dec : DecidableRel mealGe := fun a b =>
  inferInstanceAs (Decidable (b.timestamp ≤ a.timestamp))

instance mealGe.total : IsTotal MealEntry mealGe :=
  ⟨fun a b => le_total b.timestamp a.timestamp⟩

instance mealGe.trans : IsTrans MealEntry mealGe :=
  ⟨fun _ _ _ h h2 => le_trans h2 h⟩

/-- library.sort((a, b) => a.name.localeCompare(b.name)). -/
def sortByName (l : List FoodItem) : List FoodItem :=
  l.insertionSort foodLe

/-- history.sort((a, b) => b.timestamp - a.timestamp). -/
def sortByTs (l : List MealEntry) : List MealEntry :=
  l.insertionSort mealGe

/-- FoodTrackerManager.getLibrary on a well-formed store (every persisted
record already carries an id, so the read-time backfill modelled by
migrateFoods below is the identity and no write happens): parse and sort
by name. -/
def getLibrary (st : Store) : List FoodItem :=
  sortByName st.libraryData

/-- FoodTrackerManager.saveLibrary: overwrite the library collection. -/
def saveLibrary (items : List FoodItem) (st : Store) : Store :=
  { st with libraryData := items }

/-- FoodTrackerManager.getHistory on a well-formed store (see getLibrary):
parse and sort by timestamp descending. -/
def getHistory (st : Store) : List MealEntry :=
  sortByTs st.historyData

/-- FoodTrackerManager.saveHistory: overwrite the history collection. -/
def saveHistory (entries : List MealEntry) (st : Store) : Store :=
  { st with historyData := entries }

/-- FoodTrackerManager.addFood: trim the name, build the new item with a
fresh id and the current time, append, re-sort, persist, return. -/
def addFood (freshId : String) (now : Int) (name : String) (st : Store) :
    List FoodItem × Store :=
  let library := getLibrary st
  let newItem : FoodItem := { id := freshId, name := jsTrim name, createdAt := now }
  let updated := sortByName (library ++ [newItem])
  (updated, saveLibrary updated st)

/-- FoodTrackerManager.updateFood: look up the item by id (findIndex); if
absent return current state; otherwise rename it (trimmed), re-sort and
persist the library, then rewrite every occurrence of the old name in
every history entry's itemNames to the trimmed new name and persist the
history. -/
def updateFood (id newName : String) (st : Store) :
    (List FoodItem × List MealEntry) × Store :=
  let library := getLibrary st
  match library.find? (fun item => decide (item.id = id)) with
  | none => ((library, getHistory st), st)
  | some itm =>
    let oldName := itm.name
    let trimmedNewName := jsTrim newName
    let updatedLibrary := sortByName (library.map (fun item =>
      if item.id = id then { item with name := trimmedNewName } else item))
    let st1 := saveLibrary updatedLibrary st
    let history := getHistory st1
    let updatedHistory := history.map (fun entry =>
      if entry.itemNames.any (fun n => decide (n = oldName)) then
        { entry with itemNames := entry.itemNames.map (fun n =>
            if n = oldName then trimmedNewName else n) }
      else entry)
    ((updatedLibrary, updatedHistory), saveHistory updatedHistory st1)

/-- FoodTrackerManager.deleteFood: filter the library by id and persist;
the history is not touched. -/
def deleteFood (id : String) (st : Store) : List FoodItem × Store :=
  let library := (getLibrary st).filter (fun item => decide (item.id ≠ id))
  (library, saveLibrary library st)

/-- FoodTrackerManager.updateMeal: replace items and timestamp of the entry
with the given id (no emptiness check in the source), re-sort, persist. -/
def updateMeal (id : String) (itemNames : List String) (timestamp : Int)
    (st : Store) : List MealEntry × Store :=
  let history := sortByTs ((getHistory st).map (fun entry =>
    if entry.id = id then { entry with itemNames := itemNames, timestamp := timestamp }
    else entry))
  (history, saveHistory history st)

/-- FoodTrackerManager.deleteMeal: filter the history by id and persist. -/
def deleteMeal (id : String) (st : Store) : List MealEntry × Store :=
  let updated := (getHistory st).filter (fun entry => decide (entry.id ≠ id))
  (updated, saveHistory updated st)

/-- FoodTrackerManager.logMeal: an empty selection returns the history as
read, with no write; otherwise build the entry with a fresh id, prepend,
re-sort, persist. -/
def logMeal (freshId : String) (itemNames : List String) (timestamp : Int)
    (st : Store) : List MealEntry × Store :=
  if itemNames.length = 0 then (getHistory st, st)
  else
    let history := getHistory st
    let newEntry : MealEntry :=
      { id := freshId, timestamp := timestamp, items := [], itemNames := itemNames }
    let updated := sortByTs (newEntry :: history)
    (updated, saveHistory updated st)

/-!
Read-time migration layer.  Legacy persisted records may lack an id (the
JS guard is the falsiness test !item.id, true for a missing id and for the
empty string), so the raw record types carry an Option String id.  The id
generator is modelled as a function from an abstract counter to strings
together with the counter position, each backfilled record consuming one
position, mirroring the successive generateId() calls of the map pass in
getLibrary and getHistory.
-/

/-- A persisted library record before migration: the id may be absent. -/
structure RawFood where
  id : Option String
  name : String
  createdAt : Int
deriving DecidableEq, Repr

/-- A persisted history record before migration: the id may be absent. -/
structure RawMeal where
  id : Option String
  timestamp : Int
  items : List String
  itemNames : List String
deriving DecidableEq, Repr

/-- JS truthiness of item.id: present and not the empty string. -/
def hasId : Option String → Bool
  | none => false
  | some s => decide (s ≠ "")

/-- The migration map of getLibrary: backfill every missing id from the
generator, reporting whether anything changed (the migrated flag) and the
next free generator position. -/
def migrateFoods (gen : Nat → String) : Nat → List RawFood → List RawFood × Bool × Nat
  | k, [] => ([], false, k)
  | k, item :: rest =>
    if hasId item.id then
      let t := migrateFoods gen k rest
      (item :: t.1, t.2.1, t.2.2)
    else
      let t := migrateFoods gen (k + 1) rest
      ({ item with id := some (gen k) } :: t.1, true, t.2.2)

/-- The migration map of getHistory (the needsMigration pass). -/
def migrateMeals (gen : Nat → String) : Nat → List RawMeal → List RawMeal × Bool × Nat
  | k, [] => ([], false, k)
  | k, entry :: rest =>
    if hasId entry.id then
      let t := migrateMeals gen k rest
      (entry :: t.1, t.2.1, t.2.2)
    else
      let t := migrateMeals gen (k + 1) rest
      ({ entry with id := some (gen k) } :: t.1, true, t.2.2)

/-- Name comparator lifted to raw library records. -/
def rawFoodLe (a b : RawFood) : Prop := nameLe a.name b.name

instance rawFoodLe.dec : DecidableRel rawFoodLe := fun a b => nameLe.dec a.name b.name

instance rawFoodLe.total : IsTotal RawFood rawFoodLe :=
  ⟨fun a b => le_total (lowerStr a.name).data (lowerStr b.name).data⟩

instance rawFoodLe.trans : IsTrans RawFood rawFoodLe :=
  ⟨fun _ _ _ h h2 => le_trans h h2⟩

/-- Timestamp-descending comparator lifted to raw history records. -/
def rawMealGe (a b : RawMeal) : Prop := b.timestamp ≤ a.timestamp

instance rawMealGe.dec : DecidableRel rawMealGe := fun a b =>
  inferInstanceAs (Decidable (b.timestamp ≤ a.timestamp))

instance rawMealGe.total : IsTotal RawMeal rawMealGe :=
  ⟨fun a b => le_total b.timestamp a.timestamp⟩

instance rawMealGe.trans : IsTrans RawMeal rawMealGe :=
  ⟨fun _ _ _ h h2 => le_trans h2 h⟩

/-- getLibrary at the persisted layer: run the migration map, write back the
(pre-sort) migrated list when dirty, and return the sorted list.  The three
components are the returned list, the persisted list after the call, and
whether a write happened. -/
def getLibraryRaw (gen : Nat → String) (k : Nat) (persisted : List RawFood) :
    List RawFood × List RawFood × Bool :=
  let t := migrateFoods gen k persisted
  (t.1.insertionSort rawFoodLe, if t.2.1 then t.1 else persisted, t.2.1)

/-- getHistory at the persisted layer, same shape as getLibraryRaw. -/
def getHistoryRaw (gen : Nat → String) (k : Nat) (persisted : List RawMeal) :
    List RawMeal × List RawMeal × Bool :=
  let t := migrateMeals gen k persisted
  (t.1.insertionSort rawMealGe, if t.2.1 then t.1 else persisted, t.2.1)

/-!
Import layer.  importData receives arbitrary text; JSON.parse either
throws (modelled by the Option being none) or yields a JSON value.  The
persisted payload of each collection is then an arbitrary list of JSON
values, because saveLibrary(data.library) stringifies whatever the parsed
array held, so the import-level store keeps raw JSON lists.
-/

/-- Parsed JSON values. -/
inductive JVal where
  | jnull : JVal
  | jbool : Bool → JVal
  | jnum : Int → JVal
  | jstr : String → JVal
  | jarr : List JVal → JVal
  | jobj : List (String × JVal) → JVal
deriving Repr

/-- JS truthiness of a parsed JSON value (NaN aside, numbers are falsy
exactly at zero, strings exactly when empty). -/
def truthy : JVal → Bool
  | .jnull => false
  | .jbool b => b
  | .jnum n => decide (n ≠ 0)
  | .jstr s => decide (s ≠ "")
  | .jarr _ => true
  | .jobj _ => true

/-- Property access data.key on a parsed JSON value: none models the JS
undefined result on a non-object or a missing key (JSON.parse keeps the
last of duplicate keys, hence the reversed lookup). -/
def getField : JVal → String → Option JVal
  | .jobj fields, key => (fields.reverse.find? (fun p => decide (p.1 = key))).map (fun p => p.2)
  | _, _ => none

/-- Array.isArray view of a JSON value. -/
def jsonItems : JVal → Option (List JVal)
  | .jarr xs => some xs
  | _ => none

/-- The two collections as the import layer sees them: raw JSON lists. -/
structure RawStore where
  libraryJson : List JVal
  historyJson : List JVal
deriving Repr

/-- FoodTrackerManager.importData: a parse failure (none) is caught and
reported as false; property access on a parsed null throws and is likewise
caught; otherwise each of the library and history fields is persisted
wholesale when present, truthy and an array, and true is returned
regardless of how many collections were applied. -/
def importData (input : Option JVal) (st : RawStore) : Bool × RawStore :=
  match input with
  | none => (false, st)
  | some JVal.jnull => (false, st)
  | some v =>
    let st1 :=
      match getField v "library" with
      | some lv =>
        if truthy lv then
          match lv with
          | JVal.jarr xs => { st with libraryJson := xs }
          | _ => st
        else st
      | none => st
    let st2 :=
      match getField v "history" with
      | some hv =>
        if truthy hv then
          match hv with
          | JVal.jarr xs => { st1 with historyJson := xs }
          | _ => st1
        else st1
      | none => st1
    (true, st2)

/-!
Stats layer, from the StatsView component of src/index.js.  That variant
stores meals as itemIds plus an itemSnapshots map.  Local calendar
arithmetic (new Date(ts) with setHours(0,0,0,0) and getHours()) is
abstracted by two parameters: localDay maps a timestamp to its local
calendar-day ordinal (two timestamps agree exactly when d.date matching in
the source would succeed) and localHour gives the local hour 0..23.
-/

/-- Library record of the src/index.js variant. -/
structure FoodRec where
  id : String
  name : String
deriving DecidableEq, Repr

/-- History record of the src/index.js variant. -/
structure MealRec where
  id : String
  timestamp : Int
  itemIds : List String
  itemSnapshots : List (String × String)
deriving DecidableEq, Repr

/-- libMap.get(id) where libMap is built by successive Map.set calls (later
entries win); a miss gives undefined, modelled as the falsy empty string. -/
def libGet (library : List FoodRec) (fid : String) : String :=
  match library.reverse.find? (fun l => decide (l.id = fid)) with
  | some l => l.name
  | none => ""

/-- h.itemSnapshots?.[id] with a miss as the falsy empty string. -/
def snapGet (snaps : List (String × String)) (fid : String) : String :=
  match snaps.reverse.find? (fun p => decide (p.1 = fid)) with
  | some p => p.2
  | none => ""

/-- libMap.get(id) || h.itemSnapshots?.[id] || "Unknown". -/
def resolveName (library : List FoodRec) (snaps : List (String × String))
    (fid : String) : String :=
  let fromLib := libGet library fid
  if fromLib ≠ "" then fromLib
  else
    let fromSnap := snapGet snaps fid
    if fromSnap ≠ "" then fromSnap else "Unknown"

/-- foodCounts[name] = (foodCounts[name] || 0) + 1 on a plain JS object:
an association list in key-insertion order. -/
def bump : List (String × Nat) → String → List (String × Nat)
  | [], nm => [(nm, 1)]
  | (k, c) :: rest, nm =>
    if k = nm then (k, c + 1) :: rest else (k, c) :: bump rest nm

/-- The resolved display names of one history entry, in itemIds order. -/
def entryNames (library : List FoodRec) (h : MealRec) : List String :=
  h.itemIds.map (resolveName library h.itemSnapshots)

/-- The foodCounts object after the history.forEach pass of StatsView: note
that the source tallies every entry, with no day-window test on this path. -/
def foodCounts (library : List FoodRec) (history : List MealRec) :
    List (String × Nat) :=
  history.foldl (fun counts h => (entryNames library h).foldl bump counts) []

/-- Count-descending comparator of the topFoods sort. -/
def countGe (a b : String × Nat) : Prop := b.2 ≤ a.2

instance countGe.dec : DecidableRel countGe := fun a b =>
  inferInstanceAs (Decidable (b.2 ≤ a.2))

instance countGe.total : IsTotal (String × Nat) countGe :=
  ⟨fun a b => Nat.le_total b.2 a.2⟩

instance countGe.trans : IsTrans (String × Nat) countGe :=
  ⟨fun _ _ _ h h2 => le_trans h2 h⟩

/-- Object.entries(foodCounts).sort((a, b) => b[1] - a[1]).slice(0, 5). -/
def topFoods (library : List FoodRec) (history : List MealRec) :
    List (String × Nat) :=
  ((foodCounts library history).insertionSort countGe).take 5

/-- Whether a timestamp falls in the 7-day window of StatsView: its local
day is one of the last7Days bucket days, today-6 .. today. -/
def inWindow (localDay : Int → Int) (now ts : Int) : Bool :=
  decide (localDay now - 6 ≤ localDay ts) && decide (localDay ts ≤ localDay now)

/-- One last7Days bucket: the local day ordinal and the four
time-of-day-period counters. -/
structure DayBucket where
  date : Int
  morning : Nat
  afternoon : Nat
  evening : Nat
  night : Nat
deriving DecidableEq, Repr

/-- The seven zeroed buckets, oldest first. -/
def last7Days (localDay : Int → Int) (now : Int) : List DayBucket :=
  (List.range 7).map (fun i =>
    { date := localDay now - 6 + i, morning := 0, afternoon := 0, evening := 0, night := 0 })

/-- Increment the period counter matching a local hour: morning [5,11),
afternoon [11,17), evening [17,22), night otherwise. -/
def addPeriod (b : DayBucket) (hour : Nat) : DayBucket :=
  if 5 ≤ hour ∧ hour < 11 then { b with morning := b.morning + 1 }
  else if 11 ≤ hour ∧ hour < 17 then { b with afternoon := b.afternoon + 1 }
  else if 17 ≤ hour ∧ hour < 22 then { b with evening := b.evening + 1 }
  else { b with night := b.night + 1 }

/-- The day-bucket half of the StatsView pass: each entry increments the
bucket of its local day, when that day lies in the window. -/
def statsBuckets (localDay : Int → Int) (localHour : Int → Nat) (now : Int)
    (history : List MealRec) : List DayBucket :=
  history.foldl
    (fun days h => days.map (fun d =>
      if d.date = localDay h.timestamp then addPeriod d (localHour h.timestamp) else d))
    (last7Days localDay now)

/-- The count held for a name in the foodCounts object (0 when absent). -/
def cnt (counts : List (String × Nat)) (nm : String) : Nat :=
  match counts.find? (fun p => decide (p.1 = nm)) with
  | some p => p.2
  | none => 0

/-- What the library migration map does to one record: a record with an id
is kept as is, a record without one keeps its other fields and receives a
generated id. -/
def foodPreserved (gen : Nat → String) (r r2 : RawFood) : Prop :=
  (hasId r.id = true → r2 = r) ∧
  (hasId r.id = false →
    r2.name = r.name ∧ r2.createdAt = r.createdAt ∧ ∃ j, r2.id = some (gen j))

/-- What the history migration map does to one record. -/
def mealPreserved (gen : Nat → String) (r r2 : RawMeal) : Prop :=
  (hasId r.id = true → r2 = r) ∧
  (hasId r.id = false →
    r2.timestamp = r.timestamp ∧ r2.items = r.items ∧
    r2.itemNames = r.itemNames ∧ ∃ j, r2.id = some (gen j))

/-!  Shared helper lemmas.  -/

theorem sortByName_perm (l : List FoodItem) : List.Perm (sortByName l) l :=
  List.perm_insertionSort foodLe l

theorem sortByTs_perm (l : List MealEntry) : List.Perm (sortByTs l) l :=
  List.perm_insertionSort mealGe l

theorem getLibrary_ids_nodup (st : Store)
    (h : (st.libraryData.map FoodItem.id).Nodup) :
    ((getLibrary st).map FoodItem.id).Nodup :=
  (((sortByName_perm st.libraryData).map FoodItem.id).nodup_iff).mpr h

theorem getHistory_ids_nodup (st : Store)
    (h : (st.historyData.map MealEntry.id).Nodup) :
    ((getHistory st).map MealEntry.id).Nodup :=
  (((sortByTs_perm st.historyData).map MealEntry.id).nodup_iff).mpr h

/-!  C9: logging a meal with an empty selection.  -/

/-- C9: logMeal with an empty item list returns the history exactly as a
read would (the prior collection re-sorted), leaves the persisted store
untouched, and creates no entry: the returned list is a permutation of the
prior records, so the fresh id is consumed by no new record. -/
theorem logMeal_empty_noop (freshId : String) (ts : Int) (st : Store) :
    logMeal freshId [] ts st = (getHistory st, st) ∧
    (logMeal freshId [] ts st).1.Perm st.historyData := by
  refine ⟨rfl, ?_⟩
  simpa [logMeal, getHistory] using sortByTs_perm st.historyData

/-!  C5: deleting a food leaves the history alone.  -/

/-- C5: deleteFood persists a store whose history collection is untouched
(the same records, ids, timestamps and item names), persists exactly the
returned library, and the returned library holds exactly the prior items
whose id differs from the deleted one. -/
theorem deleteFood_frame (id : String) (st : Store) :
    (deleteFood id st).2.historyData = st.historyData ∧
    getHistory (deleteFood id st).2 = getHistory st ∧
    (deleteFood id st).2.libraryData = (deleteFood id st).1 ∧
    ∀ item : FoodItem,
      item ∈ (deleteFood id st).1 ↔ item ∈ st.libraryData ∧ item.id ≠ id := by
  refine ⟨rfl, rfl, rfl, fun item => ?_⟩
  simp [deleteFood, getLibrary, sortByName, List.mem_filter, List.mem_insertionSort]

/-!  C2: adding a food with a blank name.  -/

/-- C2 counterexample: addFood performs no emptiness check, so a
whitespace-only name is not rejected: on an empty library it inserts an
item whose name is the empty string, and the persisted library is no
longer the prior (empty) one. -/
theorem addFood_blank_counterexample :
    (addFood "f1" 0 "   " { libraryData := [], historyData := [] }).1 =
      [{ id := "f1", name := "", createdAt := 0 }] ∧
    (addFood "f1" 0 "   " { libraryData := [], historyData := [] }).2.libraryData ≠ [] := by
  decide

/-- C2 (amended): addFood never rejects: for every name, including blank
ones, it inserts exactly one new item carrying the trimmed name, the fresh
id and the current timestamp, and persists the returned library; the
blank-name guard lives in the submitting views (which only call addFood
when the trimmed input is non-empty), not in this operation. -/
theorem addFood_always_inserts (freshId : String) (now : Int) (name : String)
    (st : Store) :
    (addFood freshId now name st).1.length = st.libraryData.length + 1 ∧
    ({ id := freshId, name := jsTrim name, createdAt := now } : FoodItem) ∈
      (addFood freshId now name st).1 ∧
    (addFood freshId now name st).2.libraryData = (addFood freshId now name st).1 := by
  refine ⟨?_, ?_, rfl⟩
  · simp [addFood, sortByName, getLibrary, List.length_insertionSort]
  · simp [addFood, sortByName, getLibrary, List.mem_insertionSort]

/-!  C1: updating a meal to an empty item list.  -/

/-- C1 counterexample: updateMeal performs no emptiness check, so updating
a one-entry history with the empty item list empties that entry (and
changes its timestamp) instead of leaving the history unmodified. -/
theorem updateMeal_empty_counterexample :
    (updateMeal "m1" [] 3
        { libraryData := [],
          historyData := [{ id := "m1", timestamp := 5, items := [], itemNames := ["Rice"] }] }).1 =
      [{ id := "m1", timestamp := 3, items := [], itemNames := [] }] ∧
    (updateMeal "m1" [] 3
        { libraryData := [],
          historyData := [{ id := "m1", timestamp := 5, items := [], itemNames := ["Rice"] }] }).2.historyData ≠
      [{ id := "m1", timestamp := 5, items := [], itemNames := ["Rice"] }] := by
  decide

/-- C1 (amended): updateMeal applies the new item list and timestamp
unconditionally, the empty list included: the targeted entry reappears in
the returned (and persisted) history with empty itemNames and the new
timestamp; the empty-selection guard lives in the submitting views, not in
this operation. -/
theorem updateMeal_empty_replaces (id : String) (ts : Int) (st : Store)
    (e : MealEntry) (he : e ∈ st.historyData) (hid : e.id = id) :
    ({ e with itemNames := [], timestamp := ts } : MealEntry) ∈ (updateMeal id [] ts st).1 ∧
    (updateMeal id [] ts st).2.historyData = (updateMeal id [] ts st).1 := by
  refine ⟨?_, rfl⟩
  have h1 : e ∈ getHistory st := by
    simpa [getHistory, sortByTs, List.mem_insertionSort] using he
  have h2 : ({ e with itemNames := [], timestamp := ts } : MealEntry) ∈
      (getHistory st).map (fun entry =>
        if entry.id = id then { entry with itemNames := ([] : List String), timestamp := ts }
        else entry) := by
    refine List.mem_map.mpr ⟨e, h1, ?_⟩
    simp [hid]
  simpa [updateMeal, sortByTs, List.mem_insertionSort] using h2

/-- Witness for the amended C1 theorem at a concrete one-entry history. -/
theorem updateMeal_empty_replaces_witness :
    (({ id := "m1", timestamp := 5, items := [], itemNames := ["Rice"] } : MealEntry) ∈
        [({ id := "m1", timestamp := 5, items := [], itemNames := ["Rice"] } : MealEntry)] ∧
      ({ id := "m1", timestamp := 5, items := [], itemNames := ["Rice"] } : MealEntry).id = "m1") ∧
    (({ id := "m1", timestamp := 3, items := [], itemNames := [] } : MealEntry) ∈
        (updateMeal "m1" [] 3
          { libraryData := [],
            historyData := [{ id := "m1", timestamp := 5, items := [], itemNames := ["Rice"] }] }).1 ∧
      (updateMeal "m1" [] 3
          { libraryData := [],
            historyData := [{ id := "m1", timestamp := 5, items := [], itemNames := ["Rice"] }] }).2.historyData =
        (updateMeal "m1" [] 3
          { libraryData := [],
            historyData := [{ id := "m1", timestamp := 5, items := [], itemNames := ["Rice"] }] }).1) :=
  ⟨⟨List.mem_singleton.mpr rfl, rfl⟩,
    updateMeal_empty_replaces "m1" 3
      { libraryData := [],
        historyData := [{ id := "m1", timestamp := 5, items := [], itemNames := ["Rice"] }] }
      { id := "m1", timestamp := 5, items := [], itemNames := ["Rice"] }
      (List.mem_singleton.mpr rfl) rfl⟩

/-!  C6: migration idempotence.  -/

theorem migrateFoods_of_hasId (gen : Nat → String) (k : Nat) :
    ∀ (l : List RawFood), (∀ r ∈ l, hasId r.id = true) →
      migrateFoods gen k l = (l, false, k)
  | [], _ => rfl
  | a :: t, h => by
    have ha : hasId a.id = true := h a (by simp)
    have ht := migrateFoods_of_hasId gen k t (fun r hr => h r (by simp [hr]))
    simp [migrateFoods, ha, ht]

theorem migrateMeals_of_hasId (gen : Nat → String) (k : Nat) :
    ∀ (l : List RawMeal), (∀ r ∈ l, hasId r.id = true) →
      migrateMeals gen k l = (l, false, k)
  | [], _ => rfl
  | a :: t, h => by
    have ha : hasId a.id = true := h a (by simp)
    have ht := migrateMeals_of_hasId gen k t (fun r hr => h r (by simp [hr]))
    simp [migrateMeals, ha, ht]

/-- C6: on collections whose records all carry a non-empty id (what a
previous migration leaves behind), the migration maps of getLibrary and
getHistory return the records unchanged with the dirty flag unset, so the
read performs no write and persists nothing: the persisted list stays the
input and the write flag of the raw-layer read is false. -/
theorem migration_idempotent (gen : Nat → String) (k j : Nat)
    (lib : List RawFood) (hist : List RawMeal)
    (hlib : ∀ r ∈ lib, hasId r.id = true)
    (hhist : ∀ r ∈ hist, hasId r.id = true) :
    migrateFoods gen k lib = (lib, false, k) ∧
    migrateMeals gen j hist = (hist, false, j) ∧
    getLibraryRaw gen k lib = (lib.insertionSort rawFoodLe, lib, false) ∧
    getHistoryRaw gen j hist = (hist.insertionSort rawMealGe, hist, false) := by
  have h1 := migrateFoods_of_hasId gen k lib hlib
  have h2 := migrateMeals_of_hasId gen j hist hhist
  refine ⟨h1, h2, ?_, ?_⟩
  · simp [getLibraryRaw, h1]
  · simp [getHistoryRaw, h2]

/-- Witness for the C6 theorem on concrete already-migrated collections. -/
theorem migration_idempotent_witness :
    ((∀ r ∈ [({ id := some "a", name := "Rice", createdAt := 0 } : RawFood)], hasId r.id = true) ∧
      (∀ r ∈ [({ id := some "m", timestamp := 1, items := [], itemNames := ["Rice"] } : RawMeal)],
        hasId r.id = true)) ∧
    (migrateFoods (fun _ => "g") 0 [{ id := some "a", name := "Rice", createdAt := 0 }] =
        ([{ id := some "a", name := "Rice", createdAt := 0 }], false, 0) ∧
      migrateMeals (fun _ => "g") 0 [{ id := some "m", timestamp := 1, items := [], itemNames := ["Rice"] }] =
        ([{ id := some "m", timestamp := 1, items := [], itemNames := ["Rice"] }], false, 0) ∧
      getLibraryRaw (fun _ => "g") 0 [{ id := some "a", name := "Rice", createdAt := 0 }] =
        (([({ id := some "a", name := "Rice", createdAt := 0 } : RawFood)]).insertionSort rawFoodLe,
          [{ id := some "a", name := "Rice", createdAt := 0 }], false) ∧
      getHistoryRaw (fun _ => "g") 0 [{ id := some "m", timestamp := 1, items := [], itemNames := ["Rice"] }] =
        (([({ id := some "m", timestamp := 1, items := [], itemNames := ["Rice"] } : RawMeal)]).insertionSort rawMealGe,
          [{ id := some "m", timestamp := 1, items := [], itemNames := ["Rice"] }], false)) :=
  ⟨⟨by decide, by decide⟩,
    migration_idempotent (fun _ => "g") 0 0
      [{ id := some "a", name := "Rice", createdAt := 0 }]
      [{ id := some "m", timestamp := 1, items := [], itemNames := ["Rice"] }]
      (by decide) (by decide)⟩

/-!  C10: the migration is record-preserving.  -/

theorem migrateFoods_pointwise (gen : Nat → String) :
    ∀ (k : Nat) (l : List RawFood),
      List.Forall₂ (foodPreserved gen) l (migrateFoods gen k l).1
  | _, [] => List.Forall₂.nil
  | k, a :: t => by
    by_cases ha : hasId a.id = true
    · have ih := migrateFoods_pointwise gen k t
      have hrel : foodPreserved gen a a :=
        ⟨fun _ => rfl, fun hf => absurd ha (by simp [hf])⟩
      simpa [migrateFoods, ha] using List.Forall₂.cons hrel ih
    · have ih := migrateFoods_pointwise gen (k + 1) t
      have ha2 : hasId a.id = false := by simpa using ha
      have hrel : foodPreserved gen a { a with id := some (gen k) } :=
        ⟨fun hf => absurd hf (by simp [ha2]), fun _ => ⟨rfl, rfl, k, rfl⟩⟩
      simpa [migrateFoods, ha2] using List.Forall₂.cons hrel ih

theorem migrateMeals_pointwise (gen : Nat → String) :
    ∀ (k : Nat) (l : List RawMeal),
      List.Forall₂ (mealPreserved gen) l (migrateMeals gen k l).1
  | _, [] => List.Forall₂.nil
  | k, a :: t => by
    by_cases ha : hasId a.id = true
    · have ih := migrateMeals_pointwise gen k t
      have hrel : mealPreserved gen a a :=
        ⟨fun _ => rfl, fun hf => absurd ha (by simp [hf])⟩
      simpa [migrateMeals, ha] using List.Forall₂.cons hrel ih
    · have ih := migrateMeals_pointwise gen (k + 1) t
      have ha2 : hasId a.id = false := by simpa using ha
      have hrel : mealPreserved gen a { a with id := some (gen k) } :=
        ⟨fun hf => absurd hf (by simp [ha2]), fun _ => ⟨rfl, rfl, rfl, k, rfl⟩⟩
      simpa [migrateMeals, ha2] using List.Forall₂.cons hrel ih

/-- C10: the read-time migration is record-preserving: it returns exactly
as many records as were persisted, pointwise in order each record that
already had an id is returned unchanged, a record lacking one keeps every
other field and only gains a generated id, and the full (sorted) reads of
getLibrary and getHistory keep the record count too. -/
theorem migration_record_preserving (gen : Nat → String) (k j : Nat)
    (lib : List RawFood) (hist : List RawMeal) :
    List.Forall₂ (foodPreserved gen) lib (migrateFoods gen k lib).1 ∧
    (migrateFoods gen k lib).1.length = lib.length ∧
    List.Forall₂ (mealPreserved gen) hist (migrateMeals gen j hist).1 ∧
    (migrateMeals gen j hist).1.length = hist.length ∧
    (getLibraryRaw gen k lib).1.length = lib.length ∧
    (getHistoryRaw gen j hist).1.length = hist.length := by
  have h1 := migrateFoods_pointwise gen k lib
  have h2 := migrateMeals_pointwise gen j hist
  refine ⟨h1, h1.length_eq.symm, h2, h2.length_eq.symm, ?_, ?_⟩
  · simpa [getLibraryRaw, List.length_insertionSort] using h1.length_eq.symm
  · simpa [getHistoryRaw, List.length_insertionSort] using h2.length_eq.symm

/-!  C3: import is not atomic across collections.  -/

/-- C3 counterexample: a payload whose library field is a well-formed list
but whose history field is a number is applied partially and reported as a
success: importData returns true, overwrites the persisted library with
the payload's (empty) list, although the prior library was non-empty. -/
theorem importData_partial_counterexample :
    (importData (some (JVal.jobj [("library", JVal.jarr []), ("history", JVal.jnum 5)]))
        { libraryJson := [JVal.jstr "x"], historyJson := [] }).1 = true ∧
    (importData (some (JVal.jobj [("library", JVal.jarr []), ("history", JVal.jnum 5)]))
        { libraryJson := [JVal.jstr "x"], historyJson := [] }).2.libraryJson = [] ∧
    ([JVal.jstr "x"] : List JVal) ≠ [] := by
  refine ⟨rfl, rfl, by simp⟩

/-- C3 (amended): importData applies each collection independently rather
than atomically: a parse failure (or a parsed null, whose property access
throws) leaves both collections untouched and returns false, but once the
text parses to anything else the call returns true; in particular, with a
list-shaped library field and a history field that is not a list, the
library is overwritten with the payload and the history keeps its prior
records, and the caller is still told the import succeeded. -/
theorem importData_per_collection (v : JVal) (st : RawStore) (xs : List JVal)
    (hv : v ≠ JVal.jnull)
    (hlib : getField v "library" = some (JVal.jarr xs))
    (hhist : ∀ h2, getField v "history" = some h2 → jsonItems h2 = none) :
    (importData (some v) st).1 = true ∧
    (importData (some v) st).2.libraryJson = xs ∧
    (importData (some v) st).2.historyJson = st.historyJson ∧
    importData none st = (false, st) := by
  cases v with
  | jnull => exact absurd rfl hv
  | jbool b => exact absurd hlib (by simp [getField])
  | jnum n => exact absurd hlib (by simp [getField])
  | jstr s => exact absurd hlib (by simp [getField])
  | jarr ys => exact absurd hlib (by simp [getField])
  | jobj fields =>
    have hmain : (importData (some (JVal.jobj fields)) st).1 = true ∧
        (importData (some (JVal.jobj fields)) st).2.libraryJson = xs ∧
        (importData (some (JVal.jobj fields)) st).2.historyJson = st.historyJson := by
      simp only [importData]
      rw [hlib]
      rcases hf : getField (JVal.jobj fields) "history" with _ | h2
      · simp [hf, truthy]
      · have hn := hhist h2 hf
        cases h2 <;> simp_all [truthy, jsonItems]
    exact ⟨hmain.1, hmain.2.1, hmain.2.2, rfl⟩

/-- Witness for the amended C3 theorem at the payload of the
counterexample, with a non-empty prior history that survives. -/
theorem importData_per_collection_witness :
    ((JVal.jobj [("library", JVal.jarr []), ("history", JVal.jnum 5)]) ≠ JVal.jnull ∧
      getField (JVal.jobj [("library", JVal.jarr []), ("history", JVal.jnum 5)]) "library" =
        some (JVal.jarr []) ∧
      (∀ h2, getField (JVal.jobj [("library", JVal.jarr []), ("history", JVal.jnum 5)]) "history" =
          some h2 → jsonItems h2 = none)) ∧
    ((importData (some (JVal.jobj [("library", JVal.jarr []), ("history", JVal.jnum 5)]))
        { libraryJson := [JVal.jstr "x"], historyJson := [JVal.jnum 1] }).1 = true ∧
      (importData (some (JVal.jobj [("library", JVal.jarr []), ("history", JVal.jnum 5)]))
        { libraryJson := [JVal.jstr "x"], historyJson := [JVal.jnum 1] }).2.libraryJson = [] ∧
      (importData (some (JVal.jobj [("library", JVal.jarr []), ("history", JVal.jnum 5)]))
        { libraryJson := [JVal.jstr "x"], historyJson := [JVal.jnum 1] }).2.historyJson =
        ({ libraryJson := [JVal.jstr "x"], historyJson := [JVal.jnum 1] } : RawStore).historyJson ∧
      importData none { libraryJson := [JVal.jstr "x"], historyJson := [JVal.jnum 1] } =
        (false, { libraryJson := [JVal.jstr "x"], historyJson := [JVal.jnum 1] })) :=
  ⟨⟨by simp, rfl, fun h2 hf => by
      have h9 : JVal.jnum 5 = h2 := by simpa [getField] using hf
      subst h9
      rfl⟩,
    importData_per_collection (JVal.jobj [("library", JVal.jarr []), ("history", JVal.jnum 5)])
      { libraryJson := [JVal.jstr "x"], historyJson := [JVal.jnum 1] } []
      (by simp) rfl
      (fun h2 hf => by
        have h9 : JVal.jnum 5 = h2 := by simpa [getField] using hf
        subst h9
        rfl)⟩

/-!  C4: renaming a food cascades through the history.  -/

theorem updateFood_history_eq (id newName : String) (st : Store) (itm : FoodItem)
    (hfind : (getLibrary st).find? (fun item => decide (item.id = id)) = some itm) :
    (updateFood id newName st).1.2 = (getHistory st).map (fun entry =>
      if entry.itemNames.any (fun n => decide (n = itm.name)) then
        { entry with itemNames := entry.itemNames.map (fun n =>
            if n = itm.name then jsTrim newName else n) }
      else entry) ∧
    (updateFood id newName st).2.historyData = (updateFood id newName st).1.2 := by
  simp only [updateFood]
  rw [hfind]
  exact ⟨rfl, rfl⟩

/-- C4: when the library holds an item with the given id (whose name is the
old name) and the new name is non-blank, updateFood rewrites the history
pointwise: each entry keeps its id, timestamp and items, every itemNames
element equal to the old name becomes the trimmed new name and every other
element is kept; the rewritten history is what gets persisted; and when
the trimmed new name differs from the old one, no itemNames list of the
result still contains the old name. -/
theorem updateFood_cascades (id newName : String) (st : Store) (itm : FoodItem)
    (hfind : (getLibrary st).find? (fun item => decide (item.id = id)) = some itm)
    (hne : jsTrim newName ≠ "") :
    List.Forall₂
      (fun e e2 : MealEntry =>
        e2.id = e.id ∧ e2.timestamp = e.timestamp ∧ e2.items = e.items ∧
        List.Forall₂
          (fun x y => (x = itm.name → y = jsTrim newName) ∧ (x ≠ itm.name → y = x))
          e.itemNames e2.itemNames)
      (getHistory st) (updateFood id newName st).1.2 ∧
    (updateFood id newName st).2.historyData = (updateFood id newName st).1.2 ∧
    (jsTrim newName ≠ itm.name →
      ∀ e2 ∈ (updateFood id newName st).1.2, itm.name ∉ e2.itemNames) := by
  obtain ⟨hval, hsave⟩ := updateFood_history_eq id newName st itm hfind
  refine ⟨?_, hsave, ?_⟩
  · rw [hval, List.forall₂_map_right_iff]
    refine List.forall₂_same.mpr (fun e he => ?_)
    by_cases hm : e.itemNames.any (fun n => decide (n = itm.name)) = true
    · refine ⟨by simp [hm], by simp [hm], by simp [hm], ?_⟩
      have : (if e.itemNames.any (fun n => decide (n = itm.name)) = true then
          { e with itemNames := e.itemNames.map (fun n =>
              if n = itm.name then jsTrim newName else n) }
        else e).itemNames = e.itemNames.map (fun n =>
          if n = itm.name then jsTrim newName else n) := by simp [hm]
      rw [this, List.forall₂_map_right_iff]
      refine List.forall₂_same.mpr (fun x _ => ⟨fun hx => by simp [hx], fun hx => by simp [hx]⟩)
    · have hm2 : itm.name ∉ e.itemNames := by simpa using hm
      refine ⟨by simp [hm], by simp [hm], by simp [hm], ?_⟩
      have : (if e.itemNames.any (fun n => decide (n = itm.name)) = true then
          { e with itemNames := e.itemNames.map (fun n =>
              if n = itm.name then jsTrim newName else n) }
        else e).itemNames = e.itemNames := by simp [hm]
      rw [this]
      exact List.forall₂_same.mpr
        (fun x hx => ⟨fun hxx => absurd (hxx ▸ hx) hm2, fun _ => rfl⟩)
  · intro hnn e2 he2
    rw [hval] at he2
    obtain ⟨e, _, rfl⟩ := List.mem_map.mp he2
    by_cases hm : e.itemNames.any (fun n => decide (n = itm.name)) = true
    · rw [if_pos hm]
      intro hmem
      obtain ⟨x, _, heq⟩ := List.mem_map.mp hmem
      by_cases hx2 : x = itm.name
      · rw [hx2, if_pos rfl] at heq
        exact hnn heq
      · rw [if_neg hx2] at heq
        exact hx2 heq
    · have hm2 : itm.name ∉ e.itemNames := by simpa using hm
      rw [if_neg hm]
      exact hm2

/-- Witness for the C4 theorem: the library holds Rice under id a, the
history one entry listing Rice and Tea, and the rename sends Rice to
Brown Rice (trimmed). -/
theorem updateFood_cascades_witness :
    ((getLibrary
        { libraryData := [{ id := "a", name := "Rice", createdAt := 0 }],
          historyData := [{ id := "m1", timestamp := 1, items := [], itemNames := ["Rice", "Tea"] }] }).find?
        (fun item => decide (item.id = "a")) =
        some { id := "a", name := "Rice", createdAt := 0 } ∧
      jsTrim " Brown Rice " ≠ "") ∧
    (List.Forall₂
      (fun e e2 : MealEntry =>
        e2.id = e.id ∧ e2.timestamp = e.timestamp ∧ e2.items = e.items ∧
        List.Forall₂
          (fun x y => (x = ({ id := "a", name := "Rice", createdAt := 0 } : FoodItem).name →
              y = jsTrim " Brown Rice ") ∧
            (x ≠ ({ id := "a", name := "Rice", createdAt := 0 } : FoodItem).name → y = x))
          e.itemNames e2.itemNames)
      (getHistory
        { libraryData := [{ id := "a", name := "Rice", createdAt := 0 }],
          historyData := [{ id := "m1", timestamp := 1, items := [], itemNames := ["Rice", "Tea"] }] })
      (updateFood "a" " Brown Rice "
        { libraryData := [{ id := "a", name := "Rice", createdAt := 0 }],
          historyData := [{ id := "m1", timestamp := 1, items := [], itemNames := ["Rice", "Tea"] }] }).1.2 ∧
    (updateFood "a" " Brown Rice "
        { libraryData := [{ id := "a", name := "Rice", createdAt := 0 }],
          historyData := [{ id := "m1", timestamp := 1, items := [], itemNames := ["Rice", "Tea"] }] }).2.historyData =
      (updateFood "a" " Brown Rice "
        { libraryData := [{ id := "a", name := "Rice", createdAt := 0 }],
          historyData := [{ id := "m1", timestamp := 1, items := [], itemNames := ["Rice", "Tea"] }] }).1.2 ∧
    (jsTrim " Brown Rice " ≠ ({ id := "a", name := "Rice", createdAt := 0 } : FoodItem).name →
      ∀ e2 ∈ (updateFood "a" " Brown Rice "
          { libraryData := [{ id := "a", name := "Rice", createdAt := 0 }],
            historyData := [{ id := "m1", timestamp := 1, items := [], itemNames := ["Rice", "Tea"] }] }).1.2,
        ({ id := "a", name := "Rice", createdAt := 0 } : FoodItem).name ∉ e2.itemNames)) :=
  ⟨⟨by decide, by decide⟩,
    updateFood_cascades "a" " Brown Rice "
      { libraryData := [{ id := "a", name := "Rice", createdAt := 0 }],
        historyData := [{ id := "m1", timestamp := 1, items := [], itemNames := ["Rice", "Tea"] }] }
      { id := "a", name := "Rice", createdAt := 0 }
      (by decide) (by decide)⟩

/-!  C7: every operation keeps its collection sorted with distinct ids.  -/

theorem ids_map_update_food (l : List FoodItem) (id nm : String) :
    (l.map (fun item => if item.id = id then { item with name := nm } else item)).map
      FoodItem.id = l.map FoodItem.id := by
  rw [List.map_map]
  refine List.map_congr_left (fun a _ => ?_)
  by_cases h : a.id = id <;> simp [Function.comp, h]

theorem ids_map_update_meal (l : List MealEntry) (id : String) (names : List String)
    (ts : Int) :
    (l.map (fun entry =>
      if entry.id = id then { entry with itemNames := names, timestamp := ts }
      else entry)).map MealEntry.id = l.map MealEntry.id := by
  rw [List.map_map]
  refine List.map_congr_left (fun a _ => ?_)
  by_cases h : a.id = id <;> simp [Function.comp, h]

theorem getLibrary_ids_mem (st : Store) (x : String) :
    x ∈ (getLibrary st).map FoodItem.id ↔ x ∈ st.libraryData.map FoodItem.id :=
  ((sortByName_perm st.libraryData).map FoodItem.id).mem_iff

theorem getHistory_ids_mem (st : Store) (x : String) :
    x ∈ (getHistory st).map MealEntry.id ↔ x ∈ st.historyData.map MealEntry.id :=
  ((sortByTs_perm st.historyData).map MealEntry.id).mem_iff

/-- C7: starting from a store whose collections have pairwise distinct ids,
with the freshly generated ids distinct from the existing ones, the library
returned by addFood, updateFood and deleteFood is sorted by name
(case-insensitive order) with pairwise distinct ids, and the history
returned by logMeal, updateMeal and deleteMeal is sorted by timestamp
descending with pairwise distinct ids. -/
theorem ops_preserve_invariants (st : Store) (freshF freshM nm fid mid : String)
    (now ts : Int) (names : List String)
    (hlib : (st.libraryData.map FoodItem.id).Nodup)
    (hhist : (st.historyData.map MealEntry.id).Nodup)
    (hfreshF : freshF ∉ st.libraryData.map FoodItem.id)
    (hfreshM : freshM ∉ st.historyData.map MealEntry.id) :
    (List.Sorted foodLe (addFood freshF now nm st).1 ∧
      ((addFood freshF now nm st).1.map FoodItem.id).Nodup) ∧
    (List.Sorted foodLe (updateFood fid nm st).1.1 ∧
      (((updateFood fid nm st).1.1).map FoodItem.id).Nodup) ∧
    (List.Sorted foodLe (deleteFood fid st).1 ∧
      (((deleteFood fid st).1).map FoodItem.id).Nodup) ∧
    (List.Sorted mealGe (logMeal freshM names ts st).1 ∧
      (((logMeal freshM names ts st).1).map MealEntry.id).Nodup) ∧
    (List.Sorted mealGe (updateMeal mid names ts st).1 ∧
      (((updateMeal mid names ts st).1).map MealEntry.id).Nodup) ∧
    (List.Sorted mealGe (deleteMeal mid st).1 ∧
      (((deleteMeal mid st).1).map MealEntry.id).Nodup) := by
  have hlibS : ((getLibrary st).map FoodItem.id).Nodup := getLibrary_ids_nodup st hlib
  have hhistS : ((getHistory st).map MealEntry.id).Nodup := getHistory_ids_nodup st hhist
  refine ⟨⟨List.sorted_insertionSort foodLe _, ?_⟩, ?_, ⟨?_, ?_⟩, ?_, ⟨List.sorted_insertionSort mealGe _, ?_⟩, ⟨?_, ?_⟩⟩
  · have hperm :=
      (sortByName_perm (getLibrary st ++
        [{ id := freshF, name := jsTrim nm, createdAt := now }])).map FoodItem.id
    refine hperm.nodup_iff.mpr ?_
    rw [List.map_append]
    refine List.Nodup.append hlibS (List.nodup_singleton _) ?_
    intro x hx hx2
    rw [List.map_cons, List.map_nil, List.mem_singleton] at hx2
    subst hx2
    exact hfreshF ((getLibrary_ids_mem st x).mp hx)
  · rcases hf : (getLibrary st).find? (fun item => decide (item.id = fid)) with _ | itm
    · constructor
      · simpa only [updateFood, hf] using
          (List.sorted_insertionSort foodLe st.libraryData : List.Sorted foodLe (getLibrary st))
      · simpa only [updateFood, hf] using hlibS
    · constructor
      · simpa only [updateFood, hf] using
          (List.sorted_insertionSort foodLe _ :
            List.Sorted foodLe (sortByName ((getLibrary st).map (fun item =>
              if item.id = fid then { item with name := jsTrim nm } else item))))
      · have hperm :=
          (sortByName_perm ((getLibrary st).map (fun item =>
            if item.id = fid then { item with name := jsTrim nm } else item))).map FoodItem.id
        have hbase : (((getLibrary st).map (fun item =>
            if item.id = fid then { item with name := jsTrim nm } else item)).map
              FoodItem.id).Nodup := by
          rw [ids_map_update_food]
          exact hlibS
        simpa only [updateFood, hf] using hperm.nodup_iff.mpr hbase
  · exact (List.sorted_insertionSort foodLe st.libraryData :
      List.Sorted foodLe (getLibrary st)).filter _
  · exact List.Nodup.sublist
      ((List.filter_sublist (getLibrary st)).map FoodItem.id) hlibS
  · by_cases hlen : names.length = 0
    · constructor
      · simpa only [logMeal, if_pos hlen] using
          (List.sorted_insertionSort mealGe st.historyData :
            List.Sorted mealGe (getHistory st))
      · simpa only [logMeal, if_pos hlen] using hhistS
    · constructor
      · simpa only [logMeal, if_neg hlen] using
          (List.sorted_insertionSort mealGe _ :
            List.Sorted mealGe (sortByTs
              ({ id := freshM, timestamp := ts, items := [], itemNames := names } ::
                getHistory st)))
      · have hperm :=
          (sortByTs_perm
            (({ id := freshM, timestamp := ts, items := [], itemNames := names } : MealEntry) ::
              getHistory st)).map MealEntry.id
        have hbase :
            ((({ id := freshM, timestamp := ts, items := [], itemNames := names } : MealEntry) ::
              getHistory st).map MealEntry.id).Nodup := by
          rw [List.map_cons, List.nodup_cons]
          exact ⟨fun hmem => hfreshM ((getHistory_ids_mem st freshM).mp hmem), hhistS⟩
        simpa only [logMeal, if_neg hlen] using hperm.nodup_iff.mpr hbase
  · have hperm :=
      (sortByTs_perm ((getHistory st).map (fun entry =>
        if entry.id = mid then { entry with itemNames := names, timestamp := ts }
        else entry))).map MealEntry.id
    have hbase : (((getHistory st).map (fun entry =>
        if entry.id = mid then { entry with itemNames := names, timestamp := ts }
        else entry)).map MealEntry.id).Nodup := by
      rw [ids_map_update_meal]
      exact hhistS
    exact hperm.nodup_iff.mpr hbase
  · exact (List.sorted_insertionSort mealGe st.historyData :
      List.Sorted mealGe (getHistory st)).filter _
  · exact List.Nodup.sublist
      ((List.filter_sublist (getHistory st)).map MealEntry.id) hhistS

/-- Witness for the C7 theorem on a concrete one-item, one-entry store. -/
theorem ops_preserve_invariants_witness :
    let st : Store :=
      { libraryData := [{ id := "a", name := "Rice", createdAt := 0 }],
        historyData := [{ id := "m", timestamp := 1, items := [], itemNames := ["Rice"] }] }
    ((st.libraryData.map FoodItem.id).Nodup ∧
      (st.historyData.map MealEntry.id).Nodup ∧
      "b" ∉ st.libraryData.map FoodItem.id ∧
      "n" ∉ st.historyData.map MealEntry.id) ∧
    ((List.Sorted foodLe (addFood "b" 0 "Tea" st).1 ∧
        ((addFood "b" 0 "Tea" st).1.map FoodItem.id).Nodup) ∧
      (List.Sorted foodLe (updateFood "a" "Tea" st).1.1 ∧
        (((updateFood "a" "Tea" st).1.1).map FoodItem.id).Nodup) ∧
      (List.Sorted foodLe (deleteFood "a" st).1 ∧
        (((deleteFood "a" st).1).map FoodItem.id).Nodup) ∧
      (List.Sorted mealGe (logMeal "n" ["Tea"] 2 st).1 ∧
        (((logMeal "n" ["Tea"] 2 st).1).map MealEntry.id).Nodup) ∧
      (List.Sorted mealGe (updateMeal "m" ["Tea"] 2 st).1 ∧
        (((updateMeal "m" ["Tea"] 2 st).1).map MealEntry.id).Nodup) ∧
      (List.Sorted mealGe (deleteMeal "m" st).1 ∧
        (((deleteMeal "m" st).1).map MealEntry.id).Nodup)) :=
  ⟨⟨by decide, by decide, by decide, by decide⟩,
    ops_preserve_invariants
      { libraryData := [{ id := "a", name := "Rice", createdAt := 0 }],
        historyData := [{ id := "m", timestamp := 1, items := [], itemNames := ["Rice"] }] }
      "b" "n" "Tea" "a" "m" 0 2 ["Tea"]
      (by decide) (by decide) (by decide) (by decide)⟩

/-!  C8: the top-foods tally ignores the 7-day window.  -/

theorem cnt_nil (nm : String) : cnt [] nm = 0 := rfl

theorem cnt_cons (k : String) (c : Nat) (t : List (String × Nat)) (nm : String) :
    cnt ((k, c) :: t) nm = if k = nm then c else cnt t nm := by
  by_cases h : k = nm <;> simp [cnt, List.find?, h]

theorem cnt_bump_self (counts : List (String × Nat)) (nm : String) :
    cnt (bump counts nm) nm = cnt counts nm + 1 := by
  induction counts with
  | nil => simp [bump, cnt_cons, cnt_nil]
  | cons a t ih =>
    obtain ⟨k, c⟩ := a
    by_cases h : k = nm
    · subst h
      simp [bump, cnt_cons]
    · simp [bump, cnt_cons, h, ih]

theorem cnt_bump_ne (counts : List (String × Nat)) (nm m : String) (h : nm ≠ m) :
    cnt (bump counts m) nm = cnt counts nm := by
  induction counts with
  | nil => simp [bump, cnt_cons, cnt_nil, Ne.symm h]
  | cons a t ih =>
    obtain ⟨k, c⟩ := a
    by_cases h2 : k = m
    · subst h2
      simp [bump, cnt_cons, Ne.symm h]
    · simp [bump, cnt_cons, h2, ih]

theorem cnt_foldl_bump (names : List String) (counts : List (String × Nat))
    (nm : String) :
    cnt (names.foldl bump counts) nm = cnt counts nm + names.count nm := by
  induction names generalizing counts with
  | nil => simp
  | cons a t ih =>
    rw [List.foldl_cons, ih]
    by_cases h : a = nm
    · subst h
      rw [cnt_bump_self, List.count_cons]
      simp
      omega
    · rw [cnt_bump_ne _ _ _ (Ne.symm h), List.count_cons]
      simp [h]

theorem cnt_foldl_entries (library : List FoodRec) (history : List MealRec)
    (counts : List (String × Nat)) (nm : String) :
    cnt (history.foldl (fun c h => (entryNames library h).foldl bump c) counts) nm =
      cnt counts nm + ((history.map (entryNames library)).flatten).count nm := by
  induction history generalizing counts with
  | nil => simp
  | cons a t ih =>
    rw [List.foldl_cons, ih, cnt_foldl_bump, List.map_cons, List.flatten_cons,
      List.count_append]
    omega

/-- C8 counterexample: an entry 100 days in the past lies outside the 7-day
window, yet StatsView's frequency tally still counts its food: with that
single entry the top-foods list holds Rice once, while the tally of the
window-filtered history is empty. -/
theorem stats_window_counterexample :
    inWindow (fun ts => ts.fdiv 86400000) 8640000000 0 = false ∧
    topFoods [] [{ id := "m1", timestamp := 0, itemIds := ["a"], itemSnapshots := [("a", "Rice")] }] =
      [("Rice", 1)] ∧
    topFoods []
      (([({ id := "m1", timestamp := 0, itemIds := ["a"], itemSnapshots := [("a", "Rice")] } : MealRec)]).filter
        (fun h => inWindow (fun ts => ts.fdiv 86400000) 8640000000 h.timestamp)) = [] := by
  decide

/-- C8 (amended): the per-food frequency tally of StatsView runs over the
whole history with no day-window test (only the day-bucket half is window
gated): the count recorded for a name equals its number of occurrences
among the resolved names of every history entry, and the top-foods list is
the first five entries of the tally sorted by count descending (stable, so
ties keep first-encountered order): it has at most five entries and is
sorted by descending count. -/
theorem stats_counts_all_history (library : List FoodRec) (history : List MealRec)
    (nm : String) :
    cnt (foodCounts library history) nm =
      ((history.map (entryNames library)).flatten).count nm ∧
    (topFoods library history).length ≤ 5 ∧
    List.Sorted countGe (topFoods library history) := by
  refine ⟨?_, ?_, ?_⟩
  · simpa [foodCounts, cnt] using cnt_foldl_entries library history [] nm
  · exact List.length_take_le 5 _
  · exact List.Pairwise.sublist (List.take_sublist 5 _)
      (List.sorted_insertionSort countGe _)

end FoodTracker
